import Mathlib

/-!
Verification of `src/pptxremovewatermark.py` (remove-gamma-watermark).

The program walks the slide masters and layouts of a pptx document and
deletes picture shapes whose click action carries a non-empty hyperlink
address; a group shape is deleted whole as soon as one of its immediate
picture children carries such an address.

Shallow embedding notes:

* A python-pptx shape wraps an XML element; shape equality (`shape in
  list`, `getparent().remove(element)`) is identity of that element.  We
  model the element identity as a `Nat` field `element` on every shape,
  and every identity test in the source becomes a comparison of
  `element` fields.  A real shape collection consists of the children of
  one XML node, so the element identities in it are pairwise distinct;
  theorems that need this carry the hypothesis
  `(shapes.map Shape.element).Nodup`.
* `shape.click_action and shape.click_action.hyperlink and
  shape.click_action.hyperlink.address` is Python truthiness over an
  optional chain; we model each link as an `Option` and the final
  string-truthiness as `address ≠ ""`.
* `print` calls carry no program state; the removal loop's two prints
  ("Successfully removed shape." / "Could not remove shape") are counted
  by the `removed` / `failed` fields of the result, and the `__main__`
  prints are modelled as a list of message strings.
* Python functions without a `return` statement return `None`; the
  scanner's return value is modelled as an `Option Nat` that the source
  never sets.
-/

/-- A hyperlink object (`shape.click_action.hyperlink`); its `address`
is `None` or a string. -/
structure Hyperlink where
  address : Option String
deriving DecidableEq, Repr

/-- A click action object (`shape.click_action`); its `hyperlink`
member may be absent. -/
structure ClickAction where
  hyperlink : Option Hyperlink
deriving DecidableEq, Repr

/-- A shape of a slide master / layout shape collection.  `element` is
the identity of the underlying XML element (see the header comment).
The kinds are the three the source distinguishes via `shape_type`:
`MSO_SHAPE_TYPE.PICTURE`, `MSO_SHAPE_TYPE.GROUP`, and everything else.
A group owns its child shapes (`shape.shapes`).  `shape.name` is read
only inside log strings, which this embedding does not model. -/
inductive Shape where
  | picture (element : Nat) (click_action : Option ClickAction)
  | group (element : Nat) (shapes : List Shape)
  | other (element : Nat)
deriving Repr

/-- The identity of the shape's underlying XML element. -/
def Shape.element : Shape → Nat
  | .picture e _ => e
  | .group e _ => e
  | .other e => e

/-- `shape.shape_type == MSO_SHAPE_TYPE.PICTURE`. -/
def Shape.isPicture : Shape → Bool
  | .picture _ _ => true
  | _ => false

/-- Neither a picture nor a group: the shape kinds the scanner ignores. -/
def Shape.isOther : Shape → Bool
  | .other _ => true
  | _ => false

/-- Lines 12-13 (and 29-30): the shape is a picture and
`shape.click_action and shape.click_action.hyperlink and
shape.click_action.hyperlink.address` is truthy, i.e. the whole chain is
present and the address string is non-empty. -/
def isHyperlinkedPicture : Shape → Bool
  | .picture _ ca =>
    match ca with
    | some c =>
      match c.hyperlink with
      | some h =>
        match h.address with
        | some a => !(a == "")
        | none => false
      | none => false
    | none => false
  | _ => false

/-- Lines 28-36: the loop over a group's `shape.shapes` that `break`s at
the first picture child with a truthy hyperlink address.  Returning
`true` at the head models the `break`: the remaining children are not
inspected. -/
def groupHasHyperlinkedPicture : List Shape → Bool
  | [] => false
  | sub :: rest =>
    if isHyperlinkedPicture sub then true else groupHasHyperlinkedPicture rest

/-- Lines 10-36: the forward pass over `shapes_collection` that builds
`shapes_to_remove`.  `acc` is the worklist built so far; `append`
models `shapes_to_remove.append(shape)` and the `element`-identity test
models `shape not in shapes_to_remove` (line 34), since python-pptx
shape equality is identity of the underlying element. -/
def buildWorklist (acc : List Shape) : List Shape → List Shape
  | [] => acc
  | shape :: rest =>
    match shape with
    | .picture _ _ =>
      if isHyperlinkedPicture shape then buildWorklist (acc ++ [shape]) rest
      else buildWorklist acc rest
    | .group _ children =>
      if groupHasHyperlinkedPicture children then
        if acc.any (fun t => t.element == shape.element) then buildWorklist acc rest
        else buildWorklist (acc ++ [shape]) rest
      else buildWorklist acc rest
    | .other _ => buildWorklist acc rest

/-- Lines 42-43: `element.getparent().remove(element)`.  lxml removes
the child by element identity and raises (caught at line 45) when the
element is not currently a child of the parent.  `List.eraseP` removes
the first (here: only, for a duplicate-free collection) child with that
identity. -/
def detachShape (shapes_collection : List Shape) (s : Shape) :
    Option (List Shape) :=
  if shapes_collection.any (fun t => t.element == s.element) then
    some (shapes_collection.eraseP (fun t => t.element == s.element))
  else none

/-- Lines 40-46: the removal loop over `shapes_to_remove`; each
iteration tries to detach one shape, counting the "Successfully removed
shape." print on success and the "Could not remove shape" print on the
`except` path, and continues with the rest either way.  Returns the
mutated collection and the two print counts. -/
def removeLoop (shapes_collection : List Shape) :
    List Shape → List Shape × Nat × Nat
  | [] => (shapes_collection, 0, 0)
  | s :: rest =>
    match detachShape shapes_collection s with
    | some shapes' =>
      let r := removeLoop shapes' rest
      (r.1, r.2.1 + 1, r.2.2)
    | none =>
      let r := removeLoop shapes_collection rest
      (r.1, r.2.1, r.2.2 + 1)

/-- Result of one call of `remove_hyperlinked_pictures_from_shapes`:
the mutated shape collection, the counts of the per-shape success /
failure prints, and the Python return value (`retVal`). -/
structure RemovalOutcome where
  shapes : List Shape
  removed : Nat
  failed : Nat
  retVal : Option Nat
deriving Repr

/-- Lines 6-48: scan the collection, then detach every worklist shape.
The function body contains no `return` statement, so Python returns
`None` to the caller: `retVal := none`. -/
def remove_hyperlinked_pictures_from_shapes
    (shapes_collection : List Shape) : RemovalOutcome :=
  let wl := buildWorklist [] shapes_collection
  let r := removeLoop shapes_collection wl
  { shapes := r.1, removed := r.2.1, failed := r.2.2, retVal := none }

/-- The condition under which the scanning pass puts a shape on the
worklist: a picture with a truthy hyperlink address, or a group one of
whose immediate children is such a picture. -/
def shapeQualifies : Shape → Bool
  | .picture e ca => isHyperlinkedPicture (.picture e ca)
  | .group _ children => groupHasHyperlinkedPicture children
  | .other _ => false

/-- The element identities of a shape list. -/
def elems (l : List Shape) : List Nat := l.map Shape.element

theorem elems_eq (l : List Shape) : elems l = l.map Shape.element := rfl

/-- In a duplicate-free collection, element identity determines the shape. -/
theorem elems_inj {l : List Shape} (h : (elems l).Nodup) :
    ∀ s ∈ l, ∀ t ∈ l, s.element = t.element → s = t := by
  induction l with
  | nil => intro s hs; cases hs
  | cons a l ih =>
    rw [elems_eq, List.map_cons, List.nodup_cons] at h
    intro s hs t ht he
    rcases List.mem_cons.mp hs with rfl | hs'
    · rcases List.mem_cons.mp ht with rfl | ht'
      · rfl
      · exact absurd (he ▸ List.mem_map_of_mem Shape.element ht') h.1
    · rcases List.mem_cons.mp ht with rfl | ht'
      · exact absurd (he ▸ List.mem_map_of_mem Shape.element hs') h.1
      · exact ih h.2 s hs' t ht' he

/-- The `break`ing child loop returns `true` exactly when some immediate
child is a picture with a truthy hyperlink address. -/
theorem groupHasHyperlinkedPicture_iff (l : List Shape) :
    groupHasHyperlinkedPicture l = true ↔
      ∃ c ∈ l, isHyperlinkedPicture c = true := by
  induction l with
  | nil => simp [groupHasHyperlinkedPicture]
  | cons a l ih =>
    cases h : isHyperlinkedPicture a with
    | true => simp [groupHasHyperlinkedPicture, h]
    | false => simp [groupHasHyperlinkedPicture, h, ih]

/-- Scanning a duplicate-free collection appends to the worklist exactly
the shapes satisfying `shapeQualifies`, in collection order, provided no
scanned shape is already on the worklist. -/
theorem buildWorklist_eq_append (l : List Shape) :
    ∀ acc : List Shape, (elems l).Nodup →
    (∀ s ∈ l, acc.any (fun t => t.element == s.element) = false) →
    buildWorklist acc l = acc ++ l.filter shapeQualifies := by
  induction l with
  | nil => intro acc _ _; simp [buildWorklist]
  | cons shape rest ih =>
    intro acc hnd hdisj
    rw [elems_eq, List.map_cons, List.nodup_cons] at hnd
    have hnd' : (elems rest).Nodup := by rw [elems_eq]; exact hnd.2
    have hdisj' : ∀ s ∈ rest,
        (acc ++ [shape]).any (fun t => t.element == s.element) = false := by
      intro s hs
      rw [List.any_append]
      have h1 := hdisj s (List.mem_cons_of_mem shape hs)
      have h2 : shape.element ≠ s.element := by
        intro he
        exact hnd.1 (he ▸ List.mem_map_of_mem Shape.element hs)
      simp [h1, h2]
    cases shape with
    | picture e ca =>
      cases hq : isHyperlinkedPicture (Shape.picture e ca) with
      | true =>
        rw [buildWorklist, if_pos hq,
          ih (acc ++ [Shape.picture e ca]) hnd' hdisj']
        have : shapeQualifies (Shape.picture e ca) = true := hq
        simp [List.filter_cons, this]
      | false =>
        rw [buildWorklist, if_neg (by simp [hq]),
          ih acc hnd' (fun s hs => hdisj s (List.mem_cons_of_mem _ hs))]
        have : shapeQualifies (Shape.picture e ca) = false := hq
        simp [List.filter_cons, this]
    | group e children =>
      cases hq : groupHasHyperlinkedPicture children with
      | true =>
        have hin := hdisj (Shape.group e children) (List.mem_cons_self _ _)
        rw [buildWorklist, if_pos hq, if_neg (by simp [hin]),
          ih (acc ++ [Shape.group e children]) hnd' hdisj']
        have : shapeQualifies (Shape.group e children) = true := hq
        simp [List.filter_cons, this]
      | false =>
        rw [buildWorklist, if_neg (by simp [hq]),
          ih acc hnd' (fun s hs => hdisj s (List.mem_cons_of_mem _ hs))]
        have : shapeQualifies (Shape.group e children) = false := hq
        simp [List.filter_cons, this]
    | other e =>
      rw [buildWorklist,
        ih acc hnd' (fun s hs => hdisj s (List.mem_cons_of_mem _ hs))]
      simp [List.filter_cons, shapeQualifies]

/-- The worklist of one scanning pass over a duplicate-free collection. -/
theorem worklist_eq_filter (shapes : List Shape)
    (h : (elems shapes).Nodup) :
    buildWorklist [] shapes = shapes.filter shapeQualifies := by
  rw [buildWorklist_eq_append shapes [] h (by simp), List.nil_append]

/-- In a duplicate-free collection, erasing the first shape with a given
element identity erases exactly the shapes with that identity. -/
theorem eraseP_elem_eq_filter {l : List Shape} (h : (elems l).Nodup)
    (e : Nat) :
    l.eraseP (fun t => t.element == e) =
      l.filter (fun t => !(t.element == e)) := by
  induction l with
  | nil => rfl
  | cons a l ih =>
    rw [elems_eq, List.map_cons, List.nodup_cons] at h
    cases hae : (a.element == e) with
    | false =>
      rw [List.eraseP_cons, List.filter_cons]
      simp only [hae, Bool.not_false, if_true, cond_false]
      rw [ih (by rw [elems_eq]; exact h.2)]
    | true =>
      rw [List.eraseP_cons, List.filter_cons]
      simp only [hae, Bool.not_true, if_false, cond_true]
      have hae' : a.element = e := by simpa using hae
      have : ∀ t ∈ l, (!(t.element == e)) = true := by
        intro t ht
        have hne : t.element ≠ e := fun hc => h.1 (by
          have hat : a.element = t.element := by rw [hae', hc]
          rw [hat]
          exact List.mem_map_of_mem Shape.element ht)
        simp [hne]
      exact (List.filter_eq_self.mpr this).symm

/-- Every removal-loop iteration issues exactly one of the two prints:
success and failure counts always add up to the worklist length. -/
theorem removeLoop_counts (wl : List Shape) :
    ∀ shapes_collection : List Shape,
    (removeLoop shapes_collection wl).2.1 +
      (removeLoop shapes_collection wl).2.2 = wl.length := by
  induction wl with
  | nil => intro shapes_collection; rfl
  | cons s rest ih =>
    intro shapes_collection
    rw [removeLoop]
    cases hdet : detachShape shapes_collection s with
    | some shapes' => simpa using by rw [Nat.add_right_comm]; exact congrArg (· + 1) (ih shapes')
    | none => simpa [Nat.add_assoc] using congrArg (· + 1) (ih shapes_collection)

/-- On a duplicate-free collection containing every worklist shape, the
removal loop removes exactly the shapes whose element identity occurs on
the (duplicate-free) worklist, reports one success per worklist entry
and no failure. -/
theorem removeLoop_spec (wl : List Shape) :
    ∀ shapes_collection : List Shape, (elems shapes_collection).Nodup →
    (∀ s ∈ wl,
      shapes_collection.any (fun t => t.element == s.element) = true) →
    (elems wl).Nodup →
    removeLoop shapes_collection wl =
      (shapes_collection.filter
          (fun t => !(wl.any (fun s => t.element == s.element))),
        wl.length, 0) := by
  induction wl with
  | nil =>
    intro shapes_collection _ _ _
    simp [removeLoop, List.filter_eq_self]
  | cons s rest ih =>
    intro shapes_collection hnd hmem hwnd
    rw [elems_eq, List.map_cons, List.nodup_cons] at hwnd
    have hs := hmem s (List.mem_cons_self s rest)
    have hdet : detachShape shapes_collection s =
        some (shapes_collection.filter (fun t => !(t.element == s.element))) := by
      rw [detachShape, if_pos hs, eraseP_elem_eq_filter hnd]
    have hnd' :
        (elems (shapes_collection.filter
          (fun t => !(t.element == s.element)))).Nodup := by
      rw [elems_eq]
      exact List.Nodup.sublist
        ((List.filter_sublist shapes_collection).map Shape.element)
        hnd
    have hmem' : ∀ u ∈ rest,
        (shapes_collection.filter
          (fun t => !(t.element == s.element))).any
            (fun t => t.element == u.element) = true := by
      intro u hu
      obtain ⟨t, ht, hte⟩ := List.any_eq_true.mp
        (hmem u (List.mem_cons_of_mem s hu))
      refine List.any_eq_true.mpr ⟨t, List.mem_filter.mpr ⟨ht, ?_⟩, hte⟩
      have h1 : t.element = u.element := by simpa using hte
      have h2 : s.element ≠ u.element := by
        intro hc
        exact hwnd.1 (hc ▸ List.mem_map_of_mem Shape.element hu)
      have h3 : t.element ≠ s.element := by
        rw [h1]
        exact fun hc => h2 hc.symm
      simp [h3]
    simp only [removeLoop, hdet]
    rw [ih _ hnd' hmem' (by rw [elems_eq]; exact hwnd.2)]
    rw [List.filter_filter]
    have hf : (shapes_collection.filter fun a =>
        (!rest.any fun u => a.element == u.element) &&
          !(a.element == s.element)) =
        shapes_collection.filter
          (fun t => !((s :: rest).any fun u => t.element == u.element)) := by
      refine List.filter_congr fun t _ => ?_
      simp only [List.any_cons, Bool.not_or]
      exact Bool.and_comm _ _
    rw [hf]
    rfl

/-- Master characterisation of one call on a duplicate-free collection:
the call keeps exactly the non-qualifying shapes, reports one successful
removal per qualifying shape, no failure, and returns `None`. -/
theorem remove_spec (shapes : List Shape) (h : (elems shapes).Nodup) :
    remove_hyperlinked_pictures_from_shapes shapes =
      { shapes := shapes.filter (fun t => !(shapeQualifies t)),
        removed := (shapes.filter shapeQualifies).length,
        failed := 0, retVal := none } := by
  have hwl := worklist_eq_filter shapes h
  have hsub : ∀ s ∈ shapes.filter shapeQualifies,
      shapes.any (fun t => t.element == s.element) = true := by
    intro s hs
    exact List.any_eq_true.mpr ⟨s, (List.mem_filter.mp hs).1, by simp⟩
  have hnd' : (elems (shapes.filter shapeQualifies)).Nodup := by
    rw [elems_eq]
    exact List.Nodup.sublist
      ((List.filter_sublist shapes).map Shape.element) h
  have hloop := removeLoop_spec (shapes.filter shapeQualifies) shapes h
    hsub hnd'
  have hfc : shapes.filter
      (fun t =>
        !((shapes.filter shapeQualifies).any
          (fun s => t.element == s.element))) =
      shapes.filter (fun t => !(shapeQualifies t)) := by
    refine List.filter_congr fun t ht => ?_
    cases hq : shapeQualifies t with
    | true =>
      have : (shapes.filter shapeQualifies).any
          (fun s => t.element == s.element) = true :=
        List.any_eq_true.mpr ⟨t, List.mem_filter.mpr ⟨ht, hq⟩, by simp⟩
      rw [this]
    | false =>
      have : (shapes.filter shapeQualifies).any
          (fun s => t.element == s.element) = false := by
        by_contra hc
        obtain ⟨u, hu, hue⟩ :=
          List.any_eq_true.mp (Bool.of_not_eq_false hc)
        have hum := List.mem_filter.mp hu
        have : t = u := elems_inj h t ht u hum.1 (by simpa using hue)
        rw [this] at hq
        exact absurd hum.2 (by simp [hq])
      rw [this]
  rw [remove_hyperlinked_pictures_from_shapes, hwl, hloop, RemovalOutcome.mk.injEq]
  refine ⟨hfc, rfl, rfl, rfl⟩

/-- A hyperlinked picture satisfies the worklist condition. -/
theorem shapeQualifies_of_hyperlinked {s : Shape}
    (h : isHyperlinkedPicture s = true) : shapeQualifies s = true := by
  cases s with
  | picture e ca => exact h
  | group e children => exact absurd h (by simp [isHyperlinkedPicture])
  | other e => exact absurd h (by simp [isHyperlinkedPicture])

/-- Any shape the worklist-building pass appends was on the worklist
before the pass or is a member of the scanned collection. -/
theorem mem_buildWorklist (l : List Shape) :
    ∀ acc : List Shape, ∀ t ∈ buildWorklist acc l, t ∈ acc ∨ t ∈ l := by
  induction l with
  | nil => intro acc t ht; exact Or.inl ht
  | cons shape rest ih =>
    intro acc t ht
    have step : ∀ acc' : List Shape, t ∈ buildWorklist acc' rest →
        (t ∈ acc' → t ∈ acc ∨ t = shape) → t ∈ acc ∨ t ∈ shape :: rest := by
      intro acc' ht' hacc
      rcases ih acc' t ht' with h1 | h1
      · rcases hacc h1 with h2 | h2
        · exact Or.inl h2
        · exact Or.inr (h2 ▸ List.mem_cons_self _ _)
      · exact Or.inr (List.mem_cons_of_mem _ h1)
    cases shape with
    | picture e ca =>
      rw [buildWorklist] at ht
      by_cases hq : isHyperlinkedPicture (Shape.picture e ca) = true
      · rw [if_pos hq] at ht
        refine step _ ht fun h1 => ?_
        rcases List.mem_append.mp h1 with h2 | h2
        · exact Or.inl h2
        · exact Or.inr (List.mem_singleton.mp h2)
      · rw [if_neg hq] at ht
        exact step _ ht fun h1 => Or.inl h1
    | group e children =>
      rw [buildWorklist] at ht
      by_cases hq : groupHasHyperlinkedPicture children = true
      · rw [if_pos hq] at ht
        by_cases hc :
            acc.any (fun u => u.element == (Shape.group e children).element) = true
        · rw [if_pos hc] at ht
          exact step _ ht fun h1 => Or.inl h1
        · rw [if_neg hc] at ht
          refine step _ ht fun h1 => ?_
          rcases List.mem_append.mp h1 with h2 | h2
          · exact Or.inl h2
          · exact Or.inr (List.mem_singleton.mp h2)
      · rw [if_neg hq] at ht
        exact step _ ht fun h1 => Or.inl h1
    | other e =>
      rw [buildWorklist] at ht
      exact step _ ht fun h1 => Or.inl h1

/-- On a duplicate-free collection, a qualifying member's element
identity appears on the worklist exactly once. -/
theorem count_one_of_qualifies (shapes : List Shape)
    (h : (elems shapes).Nodup) (s : Shape) (hs : s ∈ shapes)
    (hq : shapeQualifies s = true) :
    (elems (buildWorklist [] shapes)).count s.element = 1 := by
  rw [worklist_eq_filter shapes h]
  have hnd : (elems (shapes.filter shapeQualifies)).Nodup := by
    rw [elems_eq]
    exact List.Nodup.sublist
      ((List.filter_sublist shapes).map Shape.element) h
  have hmem : s.element ∈ elems (shapes.filter shapeQualifies) := by
    rw [elems_eq]
    exact List.mem_map_of_mem Shape.element
      (List.mem_filter.mpr ⟨hs, hq⟩)
  exact List.count_eq_one_of_mem hnd hmem

/-- On a duplicate-free collection, a non-qualifying member's element
identity never reaches the worklist. -/
theorem not_mem_worklist_of_not_qualifies (shapes : List Shape)
    (h : (elems shapes).Nodup) (s : Shape) (hs : s ∈ shapes)
    (hq : shapeQualifies s = false) :
    s.element ∉ elems (buildWorklist [] shapes) := by
  rw [worklist_eq_filter shapes h, elems_eq]
  intro hc
  obtain ⟨u, hu, hue⟩ := List.mem_map.mp hc
  have hum := List.mem_filter.mp hu
  have : u = s := elems_inj h u hum.1 s hs hue
  rw [this] at hum
  exact absurd hum.2 (by simp [hq])

/-- On a duplicate-free collection, a non-qualifying member survives the
whole scan-and-remove call. -/
theorem mem_result_of_not_qualifies (shapes : List Shape)
    (h : (elems shapes).Nodup) (s : Shape) (hs : s ∈ shapes)
    (hq : shapeQualifies s = false) :
    s ∈ (remove_hyperlinked_pictures_from_shapes shapes).shapes := by
  rw [remove_spec shapes h]
  exact List.mem_filter.mpr ⟨hs, by simp [hq]⟩

/-- The child loop accepts as soon as it reaches a hyperlinked picture,
whatever children follow it. -/
theorem groupHas_of_prefix (pre : List Shape) :
    ∀ c : Shape, isHyperlinkedPicture c = true →
    ∀ post : List Shape,
      groupHasHyperlinkedPicture (pre ++ c :: post) = true := by
  induction pre with
  | nil =>
    intro c hc post
    rw [List.nil_append, groupHasHyperlinkedPicture, if_pos hc]
  | cons a pre ih =>
    intro c hc post
    rw [List.cons_append, groupHasHyperlinkedPicture]
    by_cases ha : isHyperlinkedPicture a = true
    · rw [if_pos ha]
    · rw [if_neg ha]
      exact ih c hc post

/-- C1: in a duplicate-free collection, a picture with a truthy
hyperlink address ends up on the removal worklist exactly once, while a
picture whose click action / hyperlink / address chain is broken or
whose address is empty is never put on the worklist and survives the
scan-and-remove call. -/
theorem claim_C1_picture_worklist (shapes : List Shape)
    (h : (elems shapes).Nodup) (s : Shape) (hs : s ∈ shapes) :
    (isHyperlinkedPicture s = true →
      (elems (buildWorklist [] shapes)).count s.element = 1) ∧
    (s.isPicture = true → isHyperlinkedPicture s = false →
      s.element ∉ elems (buildWorklist [] shapes) ∧
      s ∈ (remove_hyperlinked_pictures_from_shapes shapes).shapes) := by
  constructor
  · intro hq
    exact count_one_of_qualifies shapes h s hs
      (shapeQualifies_of_hyperlinked hq)
  · intro hp hq
    have hq' : shapeQualifies s = false := by
      cases s with
      | picture e ca => exact hq
      | group e children => exact absurd hp (by simp [Shape.isPicture])
      | other e => exact absurd hp (by simp [Shape.isPicture])
    exact ⟨not_mem_worklist_of_not_qualifies shapes h s hs hq',
      mem_result_of_not_qualifies shapes h s hs hq'⟩

/-- A picture whose click action chain carries the address "http://x". -/
def picHyper : Shape := Shape.picture 0 (some ⟨some ⟨some "http://x"⟩⟩)

/-- A picture whose hyperlink address is the empty string. -/
def picEmpty : Shape := Shape.picture 1 (some ⟨some ⟨some ""⟩⟩)

theorem claim_C1_picture_worklist_witness :
    (elems (buildWorklist [] [picHyper, picEmpty])).count
        (Shape.element picHyper) = 1 ∧
    (Shape.element picEmpty ∉ elems (buildWorklist [] [picHyper, picEmpty]) ∧
      picEmpty ∈
        (remove_hyperlinked_pictures_from_shapes [picHyper, picEmpty]).shapes) := by
  constructor
  · exact (claim_C1_picture_worklist [picHyper, picEmpty] (by decide)
      picHyper (List.mem_cons_self _ _)).1 (by decide)
  · exact (claim_C1_picture_worklist [picHyper, picEmpty] (by decide)
      picEmpty (List.mem_cons_of_mem _ (List.mem_cons_self _ _))).2
      (by decide) (by decide)

/-- C2: in a duplicate-free collection, a group with at least one
hyperlinked picture among its immediate children is put on the worklist
(as the whole group) exactly once, however many children qualify; only
members of the scanned top-level sequence ever reach the worklist; and
the child inspection is insensitive to everything after the first
matching child. -/
theorem claim_C2_group_once (shapes : List Shape)
    (h : (elems shapes).Nodup) (e : Nat) (children : List Shape)
    (hg : Shape.group e children ∈ shapes)
    (hq : ∃ c ∈ children, isHyperlinkedPicture c = true) :
    (elems (buildWorklist [] shapes)).count e = 1 ∧
    (∀ t ∈ buildWorklist [] shapes, t ∈ shapes) ∧
    (∀ pre c post post', children = pre ++ c :: post →
      (∀ x ∈ pre, isHyperlinkedPicture x = false) →
      isHyperlinkedPicture c = true →
      groupHasHyperlinkedPicture children =
        groupHasHyperlinkedPicture (pre ++ c :: post')) := by
  have hgq : shapeQualifies (Shape.group e children) = true :=
    (groupHasHyperlinkedPicture_iff children).mpr hq
  refine ⟨?_, ?_, ?_⟩
  · exact count_one_of_qualifies shapes h (Shape.group e children) hg hgq
  · intro t ht
    rcases mem_buildWorklist shapes [] t ht with h1 | h1
    · cases h1
    · exact h1
  · intro pre c post post' hch hpre hc
    rw [hch, groupHas_of_prefix pre c hc post,
      groupHas_of_prefix pre c hc post']

/-- A group holding two hyperlinked pictures and a non-picture shape. -/
def grpTwoHits : Shape :=
  Shape.group 10 [Shape.picture 11 (some ⟨some ⟨some "http://y"⟩⟩),
    Shape.picture 12 (some ⟨some ⟨some "http://z"⟩⟩), Shape.other 13]

theorem claim_C2_group_once_witness :
    (elems (buildWorklist [] [grpTwoHits, Shape.other 14])).count 10 = 1 ∧
    (∀ t ∈ buildWorklist [] [grpTwoHits, Shape.other 14],
      t ∈ [grpTwoHits, Shape.other 14]) := by
  have := claim_C2_group_once [grpTwoHits, Shape.other 14] (by decide) 10
    [Shape.picture 11 (some ⟨some ⟨some "http://y"⟩⟩),
      Shape.picture 12 (some ⟨some ⟨some "http://z"⟩⟩), Shape.other 13]
    (List.mem_cons_self _ _)
    ⟨Shape.picture 11 (some ⟨some ⟨some "http://y"⟩⟩),
      List.mem_cons_self _ _, by decide⟩
  exact ⟨this.1, this.2.1⟩

/-- C3: in a duplicate-free collection, a group none of whose immediate
children is a hyperlinked picture is never put on the worklist and
survives the scan-and-remove call — the hypothesis constrains only the
immediate children, so it admits hyperlinked pictures nested in deeper
groups (see the witness). -/
theorem claim_C3_group_untouched (shapes : List Shape)
    (h : (elems shapes).Nodup) (e : Nat) (children : List Shape)
    (hg : Shape.group e children ∈ shapes)
    (hnone : ∀ c ∈ children, isHyperlinkedPicture c = false) :
    e ∉ elems (buildWorklist [] shapes) ∧
    Shape.group e children ∈
      (remove_hyperlinked_pictures_from_shapes shapes).shapes := by
  have hgq : shapeQualifies (Shape.group e children) = false := by
    by_contra hc
    obtain ⟨c, hcm, hcq⟩ := (groupHasHyperlinkedPicture_iff children).mp
      (Bool.of_not_eq_false hc)
    exact absurd hcq (by simp [hnone c hcm])
  exact ⟨not_mem_worklist_of_not_qualifies shapes h _ hg hgq,
    mem_result_of_not_qualifies shapes h _ hg hgq⟩

/-- A hyperlinked picture two group levels down. -/
def picDeep : Shape := Shape.picture 32 (some ⟨some ⟨some "http://deep"⟩⟩)

/-- A group whose only picture with a hyperlink sits inside a nested
group, i.e. two levels below the top-level sequence. -/
def grpNested : Shape := Shape.group 30 [Shape.group 31 [picDeep], Shape.other 33]

theorem claim_C3_group_untouched_witness :
    isHyperlinkedPicture picDeep = true ∧
    ((30 : Nat) ∉ elems (buildWorklist [] [grpNested]) ∧
      grpNested ∈
        (remove_hyperlinked_pictures_from_shapes [grpNested]).shapes) := by
  refine ⟨by decide, ?_⟩
  exact claim_C3_group_untouched [grpNested] (by decide) 30
    [Shape.group 31 [picDeep], Shape.other 33]
    (List.mem_cons_self _ _) (by decide)

/-- C4 counterexample: a call that removes one shape still hands `None`
back to its caller — the counts are printed, not returned. -/
theorem claim_C4_returns_none_counterexample :
    (remove_hyperlinked_pictures_from_shapes [picHyper]).removed = 1 ∧
    (remove_hyperlinked_pictures_from_shapes [picHyper]).retVal = none := by
  decide

/-- C4 (amended): the scanner/remover reports one success or one
failure print per worklist shape, but its return value to the caller is
always `None`; no count is returned. -/
theorem claim_C4_reports_not_returns (shapes : List Shape) :
    (remove_hyperlinked_pictures_from_shapes shapes).retVal = none ∧
    (remove_hyperlinked_pictures_from_shapes shapes).removed +
      (remove_hyperlinked_pictures_from_shapes shapes).failed =
      (buildWorklist [] shapes).length :=
  ⟨rfl, removeLoop_counts (buildWorklist [] shapes) shapes⟩

/-- C5: a failed detachment is recorded as one failure for that shape
and the loop goes on with the remaining worklist; every worklist shape
is processed (one success or failure print each), so a single failure
never aborts the batch. -/
theorem claim_C5_failure_resilient (shapes_collection : List Shape)
    (s : Shape) (rest : List Shape)
    (hfail : detachShape shapes_collection s = none) :
    removeLoop shapes_collection (s :: rest) =
      ((removeLoop shapes_collection rest).1,
        (removeLoop shapes_collection rest).2.1,
        (removeLoop shapes_collection rest).2.2 + 1) ∧
    ∀ wl : List Shape,
      (removeLoop shapes_collection wl).2.1 +
        (removeLoop shapes_collection wl).2.2 = wl.length := by
  constructor
  · simp only [removeLoop, hfail]
  · intro wl
    exact removeLoop_counts wl shapes_collection

theorem claim_C5_failure_resilient_witness :
    removeLoop [Shape.other 40] (picHyper :: [Shape.other 40]) =
      ((removeLoop [Shape.other 40] [Shape.other 40]).1,
        (removeLoop [Shape.other 40] [Shape.other 40]).2.1,
        (removeLoop [Shape.other 40] [Shape.other 40]).2.2 + 1) ∧
    ∀ wl : List Shape,
      (removeLoop [Shape.other 40] wl).2.1 +
        (removeLoop [Shape.other 40] wl).2.2 = wl.length :=
  claim_C5_failure_resilient [Shape.other 40] picHyper [Shape.other 40] rfl

/-- C6: on a duplicate-free collection every detachment of the first
pass succeeds, and a second scan-and-remove pass over the collection the
first pass produced removes zero shapes. -/
theorem claim_C6_idempotent (shapes : List Shape)
    (h : (elems shapes).Nodup) :
    (remove_hyperlinked_pictures_from_shapes shapes).failed = 0 ∧
    (remove_hyperlinked_pictures_from_shapes
        (remove_hyperlinked_pictures_from_shapes shapes).shapes).removed
      = 0 := by
  have h1 := remove_spec shapes h
  have hnd' :
      (elems (shapes.filter (fun t => !(shapeQualifies t)))).Nodup := by
    rw [elems_eq]
    exact List.Nodup.sublist
      ((List.filter_sublist shapes).map Shape.element) h
  have h2 := remove_spec _ hnd'
  constructor
  · rw [h1]
  · simp only [h1, h2, List.filter_filter]
    have hnil :
        (shapes.filter fun a => shapeQualifies a && !(shapeQualifies a))
          = [] := by
      refine List.filter_eq_nil_iff.mpr fun a _ => ?_
      cases shapeQualifies a <;> simp
    rw [hnil]
    rfl

theorem claim_C6_idempotent_witness :
    (remove_hyperlinked_pictures_from_shapes
      [picHyper, Shape.other 50]).failed = 0 ∧
    (remove_hyperlinked_pictures_from_shapes
        (remove_hyperlinked_pictures_from_shapes
          [picHyper, Shape.other 50]).shapes).removed = 0 :=
  claim_C6_idempotent [picHyper, Shape.other 50] (by decide)

/-- Scanning a collection of only non-picture, non-group shapes adds
nothing to the worklist. -/
theorem buildWorklist_of_no_candidates (l : List Shape) :
    ∀ acc, (∀ s ∈ l, s.isOther = true) → buildWorklist acc l = acc := by
  induction l with
  | nil => intro acc _; rfl
  | cons shape rest ih =>
    intro acc hall
    have h1 := hall shape (List.mem_cons_self _ _)
    cases shape with
    | picture e ca => exact absurd h1 (by simp [Shape.isOther])
    | group e children => exact absurd h1 (by simp [Shape.isOther])
    | other e =>
      rw [buildWorklist]
      exact ih acc fun s hs => hall s (List.mem_cons_of_mem _ hs)

/-- The scanning pass never appends a shape of any kind other than
picture or group. -/
theorem other_not_mem_buildWorklist (l : List Shape) :
    ∀ acc, ∀ e, Shape.other e ∈ buildWorklist acc l →
      Shape.other e ∈ acc := by
  induction l with
  | nil => intro acc e h; exact h
  | cons shape rest ih =>
    intro acc e h
    have unsplit : ∀ s : Shape, Shape.other e ∈ acc ++ [s] →
        s.isOther = false → Shape.other e ∈ acc := by
      intro s hmem hns
      rcases List.mem_append.mp hmem with h1 | h1
      · exact h1
      · have := List.mem_singleton.mp h1
        rw [← this] at hns
        exact absurd hns (by simp [Shape.isOther])
    cases shape with
    | picture e' ca =>
      rw [buildWorklist] at h
      by_cases hq : isHyperlinkedPicture (Shape.picture e' ca) = true
      · rw [if_pos hq] at h
        exact unsplit _ (ih _ e h) (by simp [Shape.isOther])
      · rw [if_neg hq] at h
        exact ih _ e h
    | group e' children =>
      rw [buildWorklist] at h
      by_cases hq : groupHasHyperlinkedPicture children = true
      · rw [if_pos hq] at h
        by_cases hc : acc.any
            (fun u => u.element == (Shape.group e' children).element) = true
        · rw [if_pos hc] at h
          exact ih _ e h
        · rw [if_neg hc] at h
          exact unsplit _ (ih _ e h) (by simp [Shape.isOther])
      · rw [if_neg hq] at h
        exact ih _ e h
    | other e' =>
      rw [buildWorklist] at h
      exact ih _ e h

/-- C7: a collection without pictures and groups (in particular the
empty one) comes through the scan-and-remove call unchanged with zero
removals and zero failures, and no shape of another kind is ever put on
the worklist of any collection. -/
theorem claim_C7_other_ignored (shapes : List Shape) :
    ((∀ s ∈ shapes, s.isOther = true) →
      remove_hyperlinked_pictures_from_shapes shapes =
        { shapes := shapes, removed := 0, failed := 0, retVal := none }) ∧
    ∀ e, Shape.other e ∉ buildWorklist [] shapes := by
  constructor
  · intro hall
    have hwl := buildWorklist_of_no_candidates shapes [] hall
    simp only [remove_hyperlinked_pictures_from_shapes, hwl, removeLoop]
  · intro e hc
    exact List.not_mem_nil _ (other_not_mem_buildWorklist shapes [] e hc)

theorem claim_C7_other_ignored_witness :
    remove_hyperlinked_pictures_from_shapes [Shape.other 60, Shape.other 61]
      = { shapes := [Shape.other 60, Shape.other 61], removed := 0,
          failed := 0, retVal := none } ∧
    Shape.other 62 ∉ buildWorklist [] [Shape.other 60, Shape.other 61] := by
  have h := claim_C7_other_ignored [Shape.other 60, Shape.other 61]
  exact ⟨h.1 (by decide), h.2 62⟩

/-- Python `str.isspace` on the ASCII whitespace characters that
`str.strip()` removes; the prompt answers at issue are ASCII. -/
def pyIsSpace (c : Char) : Bool :=
  c = ' ' || c = '\t' || c = '\n' || c = '\r' || c = '\x0b' || c = '\x0c'

/-- Python `str.strip()`: drop leading and trailing whitespace. -/
def pyStrip (s : String) : String :=
  ⟨(((s.data.dropWhile pyIsSpace).reverse).dropWhile pyIsSpace).reverse⟩

/-- Python `str.upper()` (ASCII range, as produced by the prompt). -/
def pyUpper (s : String) : String := ⟨s.data.map Char.toUpper⟩

/-- Python `str.lower()` (ASCII range). -/
def pyLower (s : String) : String := ⟨s.data.map Char.toLower⟩

/-- Python `str.endswith`, over the character lists of the strings. -/
def pyEndsWith (s suffix : String) : Bool :=
  List.isSuffixOf suffix.data s.data

/-- Line 94's message. -/
def sameNameMsg : String :=
  "Error: New file name cannot be the same as the original if not overwriting. Please choose a different name."

/-- Line 98's message. -/
def invalidChoiceMsg : String := "Invalid choice. Please enter 'O' or 'S'."

/-- Lines 89-92: resolve the answer to the file-name prompt of the
save-as-new branch: strip it, and fall back to
`<stem>_modified<ext>` (via `os.path.splitext`, the `splitext`
parameter) when it is empty. -/
def resolveNewPath (splitext : String → String × String)
    (input_path nameRaw : String) : String :=
  let base_ext := splitext input_path
  let default_new_path := base_ext.1 ++ "_modified" ++ base_ext.2
  let new_path_input := pyStrip nameRaw
  if new_path_input = "" then default_new_path else new_path_input

/-- Lines 83-98: the `while True` save prompt of `process_presentation`.
`abspath` models `os.path.abspath` and `splitext` models
`os.path.splitext` (both library collaborators, taken as parameters);
`responses` is the stream of `input()` answers, consumed in order (one
per prompt; the save-as-new branch consumes a second answer for the
file name).  Returns the chosen output path together with `true` when
the loop was left through the save-as-new branch (`false` for
overwrite), `none` when the answer stream runs dry, and the list of
error messages printed by rejected iterations. -/
def save_prompt_loop (abspath : String → String)
    (splitext : String → String × String) (input_path : String) :
    List String → Option (String × Bool) × List String
  | [] => (none, [])
  | choiceRaw :: rest =>
    let choice := pyUpper (pyStrip choiceRaw)
    if choice = "O" then (some (input_path, false), [])
    else if choice = "S" then
      match rest with
      | [] => (none, [])
      | nameRaw :: rest2 =>
        let output_path := resolveNewPath splitext input_path nameRaw
        if abspath output_path = abspath input_path then
          let r := save_prompt_loop abspath splitext input_path rest2
          (r.1, sameNameMsg :: r.2)
        else (some (output_path, true), [])
    else
      let r := save_prompt_loop abspath splitext input_path rest
      (r.1, invalidChoiceMsg :: r.2)

/-- Outcome of the `__main__` validation block (lines 112-117):
the lines printed, whether `process_presentation` was invoked, and the
interpreter's exit status for that path.  The script never calls
`sys.exit` and the validation branches only print, so the interpreter
finishes the module and exits with status 0 on every one of these
paths. -/
structure MainOutcome where
  messages : List String
  processed : Bool
  exitCode : Nat
deriving Repr, DecidableEq

/-- Lines 112-117: validate the parsed `input_file` argument.
`fileExists` models `os.path.exists(args.input_file)`. -/
def main_validate (fileExists : Bool) (input_file : String) : MainOutcome :=
  if !fileExists then
    { messages := ["Error: Input file '" ++ input_file ++ "' not found."],
      processed := false, exitCode := 0 }
  else if !(pyEndsWith (pyLower input_file) ".pptx") then
    { messages :=
        ["Error: Input file '" ++ input_file ++ "' is not a .pptx file."],
      processed := false, exitCode := 0 }
  else
    { messages := [], processed := true, exitCode := 0 }

/-- A normalised answer `O` leaves the prompt loop at once: overwrite. -/
theorem save_prompt_O_step (abspath : String → String)
    (splitext : String → String × String) (input_path choiceRaw : String)
    (rest : List String) (hO : pyUpper (pyStrip choiceRaw) = "O") :
    save_prompt_loop abspath splitext input_path (choiceRaw :: rest) =
      (some (input_path, false), []) := by
  cases rest with
  | nil =>
    simp only [save_prompt_loop]
    rw [if_pos hO]
  | cons nameRaw rest2 =>
    simp only [save_prompt_loop]
    rw [if_pos hO]

/-- A normalised answer `S` with no further answer to consume: the
model's out-of-input outcome. -/
theorem save_prompt_S_empty_step (abspath : String → String)
    (splitext : String → String × String) (input_path choiceRaw : String)
    (hS : pyUpper (pyStrip choiceRaw) = "S") :
    save_prompt_loop abspath splitext input_path [choiceRaw] =
      (none, []) := by
  have hO : ¬pyUpper (pyStrip choiceRaw) = "O" := by
    rw [hS]
    decide
  simp only [save_prompt_loop]
  rw [if_neg hO, if_pos hS]

/-- A normalised answer `S` followed by a file-name answer: accept the
resolved path unless it coincides (as absolute paths) with the input
path, in which case print the rejection message and loop. -/
theorem save_prompt_S_step (abspath : String → String)
    (splitext : String → String × String)
    (input_path choiceRaw nameRaw : String) (rest2 : List String)
    (hS : pyUpper (pyStrip choiceRaw) = "S") :
    save_prompt_loop abspath splitext input_path
        (choiceRaw :: nameRaw :: rest2) =
      (if abspath (resolveNewPath splitext input_path nameRaw) =
          abspath input_path then
        ((save_prompt_loop abspath splitext input_path rest2).1,
          sameNameMsg ::
            (save_prompt_loop abspath splitext input_path rest2).2)
      else (some (resolveNewPath splitext input_path nameRaw, true), [])) := by
  have hO : ¬pyUpper (pyStrip choiceRaw) = "O" := by
    rw [hS]
    decide
  simp only [save_prompt_loop]
  rw [if_neg hO, if_pos hS]

/-- An answer normalising to neither `O` nor `S` prints the
invalid-choice message and re-prompts on the remaining answers. -/
theorem save_prompt_invalid_step (abspath : String → String)
    (splitext : String → String × String) (input_path choiceRaw : String)
    (rest : List String) (hO : ¬pyUpper (pyStrip choiceRaw) = "O")
    (hS : ¬pyUpper (pyStrip choiceRaw) = "S") :
    save_prompt_loop abspath splitext input_path (choiceRaw :: rest) =
      ((save_prompt_loop abspath splitext input_path rest).1,
        invalidChoiceMsg ::
          (save_prompt_loop abspath splitext input_path rest).2) := by
  cases rest with
  | nil =>
    simp only [save_prompt_loop]
    rw [if_neg hO, if_neg hS]
  | cons nameRaw rest2 =>
    simp only [save_prompt_loop]
    rw [if_neg hO, if_neg hS]

/-- However long the answer stream, the prompt loop never hands back an
output path accepted in the save-as-new branch whose absolute path
equals the input path's. -/
theorem save_prompt_no_input_overwrite (abspath : String → String)
    (splitext : String → String × String) (input_path : String) :
    ∀ n : Nat, ∀ responses : List String, responses.length ≤ n →
    ∀ out : String,
      (save_prompt_loop abspath splitext input_path responses).1 =
        some (out, true) →
      abspath out ≠ abspath input_path := by
  intro n
  induction n with
  | zero =>
    intro responses hlen out hout
    rw [List.length_eq_zero.mp (Nat.le_zero.mp hlen)] at hout
    exact absurd hout (by simp [save_prompt_loop])
  | succ n ih =>
    intro responses hlen out hout
    cases responses with
    | nil => exact absurd hout (by simp [save_prompt_loop])
    | cons choiceRaw rest =>
      by_cases hO : pyUpper (pyStrip choiceRaw) = "O"
      · rw [save_prompt_O_step abspath splitext input_path choiceRaw rest
          hO] at hout
        simp at hout
      · by_cases hS : pyUpper (pyStrip choiceRaw) = "S"
        · cases rest with
          | nil =>
            rw [save_prompt_S_empty_step abspath splitext input_path
              choiceRaw hS] at hout
            simp at hout
          | cons nameRaw rest2 =>
            rw [save_prompt_S_step abspath splitext input_path choiceRaw
              nameRaw rest2 hS] at hout
            by_cases habs :
                abspath (resolveNewPath splitext input_path nameRaw) =
                  abspath input_path
            · rw [if_pos habs] at hout
              refine ih rest2 ?_ out hout
              simp only [List.length_cons] at hlen
              omega
            · rw [if_neg habs] at hout
              simp at hout
              rw [← hout]
              exact habs
        · rw [save_prompt_invalid_step abspath splitext input_path
            choiceRaw rest hO hS] at hout
          refine ih rest ?_ out hout
          simp only [List.length_cons] at hlen
          omega

/-- C8: under the save-as-new choice, an output path whose absolute
path equals the input path's is rejected with the error message and the
loop re-prompts on the remaining answers; any path with which the loop
finishes through the save-as-new branch differs from the input path as
absolute paths, so the file is never saved to the input path under that
choice. -/
theorem claim_C8_no_silent_overwrite (abspath : String → String)
    (splitext : String → String × String) (input_path : String) :
    (∀ responses : List String, ∀ out : String,
      (save_prompt_loop abspath splitext input_path responses).1 =
        some (out, true) →
      abspath out ≠ abspath input_path) ∧
    (∀ choiceRaw nameRaw : String, ∀ rest2 : List String,
      pyUpper (pyStrip choiceRaw) = "S" →
      abspath (resolveNewPath splitext input_path nameRaw) =
        abspath input_path →
      save_prompt_loop abspath splitext input_path
          (choiceRaw :: nameRaw :: rest2) =
        ((save_prompt_loop abspath splitext input_path rest2).1,
          sameNameMsg ::
            (save_prompt_loop abspath splitext input_path rest2).2)) := by
  constructor
  · intro responses out hout
    exact save_prompt_no_input_overwrite abspath splitext input_path
      responses.length responses (Nat.le_refl _) out hout
  · intro choiceRaw nameRaw rest2 hS habs
    rw [save_prompt_S_step abspath splitext input_path choiceRaw nameRaw
      rest2 hS, if_pos habs]

/-- C10: the prompt answer acts only through its stripped, upper-cased
form — `O` overwrites at once, `S` behaves exactly like the literal
answer `"S"`, and anything else prints the invalid-choice message and
re-prompts (no error, no default). -/
theorem claim_C10_prompt_normalisation (abspath : String → String)
    (splitext : String → String × String) (input_path choiceRaw : String)
    (rest : List String) :
    (pyUpper (pyStrip choiceRaw) = "O" →
      save_prompt_loop abspath splitext input_path (choiceRaw :: rest) =
        (some (input_path, false), [])) ∧
    (pyUpper (pyStrip choiceRaw) = "S" →
      save_prompt_loop abspath splitext input_path (choiceRaw :: rest) =
        save_prompt_loop abspath splitext input_path ("S" :: rest)) ∧
    (¬pyUpper (pyStrip choiceRaw) = "O" →
      ¬pyUpper (pyStrip choiceRaw) = "S" →
      save_prompt_loop abspath splitext input_path (choiceRaw :: rest) =
        ((save_prompt_loop abspath splitext input_path rest).1,
          invalidChoiceMsg ::
            (save_prompt_loop abspath splitext input_path rest).2)) := by
  have hSnorm : pyUpper (pyStrip "S") = "S" := by decide
  refine ⟨?_, ?_, ?_⟩
  · intro hO
    exact save_prompt_O_step _ _ _ _ _ hO
  · intro hS
    cases rest with
    | nil =>
      rw [save_prompt_S_empty_step _ _ _ _ hS,
        save_prompt_S_empty_step _ _ _ _ hSnorm]
    | cons nameRaw rest2 =>
      rw [save_prompt_S_step _ _ _ _ _ _ hS,
        save_prompt_S_step _ _ _ _ _ _ hSnorm]
  · intro hO hS
    exact save_prompt_invalid_step _ _ _ _ _ hO hS

/-- C9 counterexample: a missing input file prints the not-found
message and skips processing, but the interpreter exits with status 0
there, not with a non-zero code. -/
theorem claim_C9_exit_code_counterexample :
    (main_validate false "missing.pptx").processed = false ∧
    (main_validate false "missing.pptx").messages ≠ [] ∧
    (main_validate false "missing.pptx").exitCode = 0 := by
  decide

/-- C9 (amended): each failing validation prints its message to
standard output and skips processing, and the exit status is 0 on the
failing paths just as on normal completion — the script never sets a
non-zero exit code. -/
theorem claim_C9_validation_exit (fileExists : Bool)
    (input_file : String) :
    (fileExists = false →
      main_validate fileExists input_file =
        { messages :=
            ["Error: Input file '" ++ input_file ++ "' not found."],
          processed := false, exitCode := 0 }) ∧
    (fileExists = true →
      pyEndsWith (pyLower input_file) ".pptx" = false →
      main_validate fileExists input_file =
        { messages := ["Error: Input file '" ++ input_file ++
            "' is not a .pptx file."],
          processed := false, exitCode := 0 }) ∧
    (fileExists = true →
      pyEndsWith (pyLower input_file) ".pptx" = true →
      main_validate fileExists input_file =
        { messages := [], processed := true, exitCode := 0 }) := by
  refine ⟨?_, ?_, ?_⟩
  · intro h
    simp [main_validate, h]
  · intro h h2
    simp [main_validate, h, h2]
  · intro h h2
    simp [main_validate, h, h2]

theorem claim_C9_validation_exit_witness :
    main_validate false "missing.pptx" =
      { messages := ["Error: Input file 'missing.pptx' not found."],
        processed := false, exitCode := 0 } ∧
    main_validate true "deck.txt" =
      { messages := ["Error: Input file 'deck.txt' is not a .pptx file."],
        processed := false, exitCode := 0 } := by
  constructor
  · exact (claim_C9_validation_exit false "missing.pptx").1 rfl
  · exact (claim_C9_validation_exit true "deck.txt").2.1 rfl (by decide)

theorem claim_C8_no_silent_overwrite_witness :
    (id "b.pptx" ≠ id "a.pptx") ∧
    save_prompt_loop id (fun s => (s, "")) "a.pptx" [" s ", "a.pptx"] =
      ((save_prompt_loop id (fun s => (s, "")) "a.pptx" []).1,
        sameNameMsg ::
          (save_prompt_loop id (fun s => (s, "")) "a.pptx" []).2) := by
  constructor
  · exact (claim_C8_no_silent_overwrite id (fun s => (s, "")) "a.pptx").1
      ["S", "b.pptx"] "b.pptx" (by decide)
  · exact (claim_C8_no_silent_overwrite id (fun s => (s, "")) "a.pptx").2
      " s " "a.pptx" [] (by decide) (by decide)

theorem claim_C10_prompt_normalisation_witness :
    save_prompt_loop id (fun s => (s, "")) "a.pptx" [" o "] =
      (some ("a.pptx", false), []) ∧
    save_prompt_loop id (fun s => (s, "")) "a.pptx" ["q", " o "] =
      ((save_prompt_loop id (fun s => (s, "")) "a.pptx" [" o "]).1,
        invalidChoiceMsg ::
          (save_prompt_loop id (fun s => (s, "")) "a.pptx" [" o "]).2) := by
  constructor
  · exact (claim_C10_prompt_normalisation id (fun s => (s, "")) "a.pptx"
      " o " []).1 (by decide)
  · exact (claim_C10_prompt_normalisation id (fun s => (s, "")) "a.pptx"
      "q" [" o "]).2.2 (by decide) (by decide)
